import Mathlib

/-!
Verification of the override-resolution engine of the CPS catalog portal.

The resolution logic lives in the SQL views `cps.v_cps_catalog_effective` and
`cps.v_cps_catalog_effective_validated` (final migration:
`src/backend/migrations/update_views_for_device_type.sql`; the earlier
`update_view_for_apply_for_all.sql` adds the `risk_score` column logic).
Each view, per field, selects one winning override per scope bucket with
`ROW_NUMBER() OVER (PARTITION BY ... ORDER BY ...)` and resolves the field
with `COALESCE(NULLIF(dev, ''), NULLIF(cps, ''), base)`.

This file embeds one row of the `cps.user_input_cps_catalog` table as
`OverrideRow`, one row of `cps.cps_catalog_gold` as `GoldRow`, and the
per-field resolution of the two views as `resolveEffective` and
`resolveValidated`.
-/

/-- One row of `cps.user_input_cps_catalog` (the override log), keeping the
columns the views read.  `apply_for_all` is a nullable boolean column, hence
`Option Bool`; `changed_at` is a timestamp, embedded as `Nat`. -/
structure OverrideRow where
  id : Nat
  device_uuid : String
  cps_id : String
  field_name : String
  new_value : String
  is_validated : Bool
  apply_for_all : Option Bool
  changed_at : Nat
  deriving Repr, DecidableEq

/-- One row of `cps.cps_catalog_gold` restricted to the identifying columns
the join logic uses; per-field base values are passed separately, one column
at a time, exactly as each view column only reads one gold column. -/
structure GoldRow where
  device_uuid : String
  cps_id : String
  deriving Repr, DecidableEq

/-- SQL `u.apply_for_all = FALSE OR u.apply_for_all IS NULL`
(the `latest_device` CTE's WHERE clause). -/
def devScope (r : OverrideRow) : Bool :=
  r.apply_for_all == some false || r.apply_for_all == none

/-- SQL `u.apply_for_all = TRUE` (the `latest_cps_id` CTE's WHERE clause). -/
def grpScope (r : OverrideRow) : Bool :=
  r.apply_for_all == some true

/-- Ranking of `ORDER BY u.is_validated DESC, u.changed_at DESC, u.id DESC`:
`effRank a b` is true when `a` sorts at or before `b` under that ordering. -/
def effRank (a b : OverrideRow) : Bool :=
  if a.is_validated ≠ b.is_validated then a.is_validated
  else if a.changed_at ≠ b.changed_at then decide (b.changed_at < a.changed_at)
  else decide (b.id ≤ a.id)

/-- Ranking of `ORDER BY u.changed_at DESC, u.id DESC` (the validated view
drops the `is_validated` key). -/
def valRank (a b : OverrideRow) : Bool :=
  if a.changed_at ≠ b.changed_at then decide (b.changed_at < a.changed_at)
  else decide (b.id ≤ a.id)

/-- One step of selecting the `rn = 1` row: keep the better-ranked row. -/
def pick (rank : OverrideRow → OverrideRow → Bool)
    (acc : Option OverrideRow) (r : OverrideRow) : Option OverrideRow :=
  match acc with
  | none => some r
  | some a => if rank a r then some a else some r

/-- The `rn = 1` row of a partition: the row ranked first under `rank`.
With distinct `id`s the ordering is total, so this is the unique winner. -/
def bucketWinner (rank : OverrideRow → OverrideRow → Bool)
    (l : List OverrideRow) : Option OverrideRow :=
  l.foldl (pick rank) none

/-- Device-scope candidates for one device and field: the `latest_device`
CTE partition `PARTITION BY u.device_uuid, u.field_name` restricted by its
WHERE clause. -/
def devCands (log : List OverrideRow) (d f : String) : List OverrideRow :=
  log.filter (fun r => r.device_uuid == d && r.field_name == f && devScope r)

/-- The `cps_id` a log row contributes to in the `latest_cps_id` CTE of
`update_views_for_device_type.sql`: the CTE joins
`u JOIN cps_catalog_gold g ON u.device_uuid = g.device_uuid` and partitions
by `g.cps_id`, so the group is looked up from the originating device's
current gold row. -/
def rowCps (gold : List GoldRow) (r : OverrideRow) : Option String :=
  (gold.find? (fun g => g.device_uuid == r.device_uuid)).map (fun g => g.cps_id)

/-- Group-scope candidates for one `cps_id` and field (the `latest_cps_id`
partition of `update_views_for_device_type.sql`). -/
def cpsCands (gold : List GoldRow) (log : List OverrideRow) (c f : String) :
    List OverrideRow :=
  log.filter (fun r => r.field_name == f && grpScope r && rowCps gold r == some c)

/-- SQL `NULLIF(v, '')`. -/
def nullifEmpty (v : String) : Option String :=
  if v == "" then none else some v

/-- Value contributed by a bucket: `NULLIF(l_xxx.new_value, '')` where the
LEFT JOIN yields NULL when no `rn = 1` row matched. -/
def ovVal (w : Option OverrideRow) : Option String :=
  w.bind (fun r => nullifEmpty r.new_value)

/-- Per-field column of `cps.v_cps_catalog_effective`
(`update_views_for_device_type.sql`):
`COALESCE(NULLIF(dev.new_value,''), NULLIF(cps.new_value,''), base)` where
`dev` and `cps` are the `rn = 1` rows of the two CTEs for device `d`
(gold row `⟨d, c⟩`) and field `f`, and `base` is the gold column value. -/
def resolveEffective (gold : List GoldRow) (log : List OverrideRow)
    (d c f base : String) : String :=
  match ovVal (bucketWinner effRank (devCands log d f)) with
  | some v => v
  | none =>
    match ovVal (bucketWinner effRank (cpsCands gold log c f)) with
    | some v => v
    | none => base

/-- Device-scope candidates of the validated view: same partition with the
additional WHERE `u.is_validated = true`. -/
def valDevCands (log : List OverrideRow) (d f : String) : List OverrideRow :=
  log.filter (fun r =>
    r.device_uuid == d && r.field_name == f && devScope r && r.is_validated)

/-- Group-scope candidates of the validated view. -/
def valCpsCands (gold : List GoldRow) (log : List OverrideRow) (c f : String) :
    List OverrideRow :=
  log.filter (fun r =>
    r.field_name == f && grpScope r && rowCps gold r == some c && r.is_validated)

/-- Per-field column of `cps.v_cps_catalog_effective_validated`: unvalidated
rows are discarded in both CTEs and the ordering drops the `is_validated`
key. -/
def resolveValidated (gold : List GoldRow) (log : List OverrideRow)
    (d c f base : String) : String :=
  match ovVal (bucketWinner valRank (valDevCands log d f)) with
  | some v => v
  | none =>
    match ovVal (bucketWinner valRank (valCpsCands gold log c f)) with
    | some v => v
    | none => base

/-! ### Properties of the ranking orders and of winner selection -/

theorem effRank_refl (a : OverrideRow) : effRank a a = true := by
  simp [effRank]

theorem valRank_refl (a : OverrideRow) : valRank a a = true := by
  simp [valRank]

theorem effRank_total (a b : OverrideRow) :
    effRank a b = false → effRank b a = true := by
  intro h
  unfold effRank at h ⊢
  split_ifs at h ⊢ <;>
    cases ha : a.is_validated <;> cases hb : b.is_validated <;>
    try simp_all
  all_goals omega

theorem valRank_total (a b : OverrideRow) :
    valRank a b = false → valRank b a = true := by
  intro h
  unfold valRank at h ⊢
  split_ifs at h ⊢ <;> try simp_all
  all_goals omega

theorem effRank_trans (a b c : OverrideRow) :
    effRank a b = true → effRank b c = true → effRank a c = true := by
  intro h1 h2
  unfold effRank at h1 h2 ⊢
  split_ifs at h1 h2 ⊢ <;>
    cases ha : a.is_validated <;> cases hb : b.is_validated <;>
    cases hc : c.is_validated <;> try simp_all
  all_goals omega

theorem valRank_trans (a b c : OverrideRow) :
    valRank a b = true → valRank b c = true → valRank a c = true := by
  intro h1 h2
  unfold valRank at h1 h2 ⊢
  split_ifs at h1 h2 ⊢ <;> try simp_all
  all_goals omega

theorem foldl_pick_spec (rank : OverrideRow → OverrideRow → Bool)
    (htot : ∀ a b, rank a b = false → rank b a = true)
    (htrans : ∀ a b c, rank a b = true → rank b c = true → rank a c = true)
    (hrefl : ∀ a, rank a a = true) :
    ∀ (l : List OverrideRow) (a : OverrideRow),
      ∃ w, l.foldl (pick rank) (some a) = some w ∧ (w = a ∨ w ∈ l) ∧
        rank w a = true ∧ ∀ e ∈ l, rank w e = true := by
  intro l
  induction l with
  | nil =>
    intro a
    exact ⟨a, rfl, Or.inl rfl, hrefl a, by simp⟩
  | cons x t ih =>
    intro a
    by_cases hx : rank a x = true
    · have hstep : (x :: t).foldl (pick rank) (some a) = t.foldl (pick rank) (some a) := by
        simp [List.foldl_cons, pick, hx]
      obtain ⟨w, hw, hmem, hwa, hall⟩ := ih a
      refine ⟨w, by rw [hstep]; exact hw, ?_, hwa, ?_⟩
      · rcases hmem with h | h
        · exact Or.inl h
        · exact Or.inr (List.mem_cons_of_mem x h)
      · intro e he
        rcases List.mem_cons.mp he with rfl | he
        · exact htrans w a e hwa hx
        · exact hall e he
    · have hx' : rank a x = false := by
        cases h : rank a x
        · rfl
        · exact absurd h hx
      have hstep : (x :: t).foldl (pick rank) (some a) = t.foldl (pick rank) (some x) := by
        simp [List.foldl_cons, pick, hx']
      obtain ⟨w, hw, hmem, hwx, hall⟩ := ih x
      have hxa : rank x a = true := htot a x hx'
      refine ⟨w, by rw [hstep]; exact hw, ?_, htrans w x a hwx hxa, ?_⟩
      · rcases hmem with rfl | h
        · exact Or.inr (List.mem_cons_self w t)
        · exact Or.inr (List.mem_cons_of_mem x h)
      · intro e he
        rcases List.mem_cons.mp he with rfl | he
        · exact hwx
        · exact hall e he

theorem bucketWinner_spec (rank : OverrideRow → OverrideRow → Bool)
    (htot : ∀ a b, rank a b = false → rank b a = true)
    (htrans : ∀ a b c, rank a b = true → rank b c = true → rank a c = true)
    (hrefl : ∀ a, rank a a = true)
    (l : List OverrideRow) (w : OverrideRow)
    (h : bucketWinner rank l = some w) :
    w ∈ l ∧ ∀ e ∈ l, rank w e = true := by
  cases l with
  | nil => exact absurd h (by simp [bucketWinner])
  | cons x t =>
    have hfold : bucketWinner rank (x :: t) = t.foldl (pick rank) (some x) := by
      simp [bucketWinner, List.foldl_cons, pick]
    obtain ⟨w', hw', hmem, hwx, hall⟩ := foldl_pick_spec rank htot htrans hrefl t x
    have hww : w' = w := by
      rw [hfold, hw'] at h
      exact Option.some_injective _ h
    subst hww
    constructor
    · rcases hmem with rfl | hmem
      · exact List.mem_cons_self w' t
      · exact List.mem_cons_of_mem x hmem
    · intro e he
      rcases List.mem_cons.mp he with rfl | he
      · exact hwx
      · exact hall e he

/-- Maximality of the effective-mode bucket winner. -/
theorem effWinner_spec (l : List OverrideRow) (w : OverrideRow)
    (h : bucketWinner effRank l = some w) :
    w ∈ l ∧ ∀ e ∈ l, effRank w e = true :=
  bucketWinner_spec effRank effRank_total effRank_trans effRank_refl l w h

/-- Maximality of the validated-mode bucket winner. -/
theorem valWinner_spec (l : List OverrideRow) (w : OverrideRow)
    (h : bucketWinner valRank l = some w) :
    w ∈ l ∧ ∀ e ∈ l, valRank w e = true :=
  bucketWinner_spec valRank valRank_total valRank_trans valRank_refl l w h

/-! ### C1: effective-mode bucket ordering -/

/-- Scenario row of C1: `id=5`, validated, `changed_at = t1 = 1`. -/
def c1row5 : OverrideRow :=
  ⟨5, "d1", "g1", "vendor", "V5", true, some false, 1⟩

/-- Scenario row of C1: `id=9`, unvalidated, `changed_at = t2 = 2 > t1`. -/
def c1row9 : OverrideRow :=
  ⟨9, "d1", "g1", "vendor", "V9", false, some false, 2⟩

/-- Scenario log and base table of C1. -/
def c1log : List OverrideRow := [c1row5, c1row9]

def c1gold : List GoldRow := [⟨"d1", "g1"⟩]

/-- C1: in mode `effective`, within each scope bucket the single winning
candidate is the entry that comes first under the ordering `is_validated`
descending, then `changed_at` descending, then `id` descending — formalized:
the selected `rn = 1` row is a member of its bucket and ranks at or before
every member of the bucket.  In particular, for two overrides on the same
device and field where `id=5` is validated at `t1` and `id=9` is unvalidated
at `t2 > t1`, resolution returns `id=5`'s value. -/
theorem c1_effective_winner_first_under_ordering :
    (∀ (cands : List OverrideRow) (w : OverrideRow),
        bucketWinner effRank cands = some w →
          w ∈ cands ∧ ∀ e ∈ cands, effRank w e = true) ∧
    resolveEffective c1gold c1log "d1" "g1" "vendor" "Base" = "V5" :=
  ⟨effWinner_spec, by decide⟩

/-- Witness for C1 at the scenario bucket: `id=5` wins it. -/
theorem c1_effective_winner_first_under_ordering_witness :
    c1row5 ∈ c1log ∧ ∀ e ∈ c1log, effRank c1row5 e = true :=
  c1_effective_winner_first_under_ordering.1 c1log c1row5 (by decide)

/-! ### Fallthrough structure of the COALESCE chain -/

/-- When the device bucket contributes a non-NULL value, the COALESCE takes it. -/
theorem resolveEffective_dev_val (gold : List GoldRow) (log : List OverrideRow)
    (d c f base : String) (v : String)
    (h : ovVal (bucketWinner effRank (devCands log d f)) = some v) :
    resolveEffective gold log d c f base = v := by
  unfold resolveEffective
  rw [h]

/-- When the device bucket contributes NULL, the COALESCE falls through to the
group bucket and then the base value. -/
theorem resolveEffective_dev_null (gold : List GoldRow) (log : List OverrideRow)
    (d c f base : String)
    (h : ovVal (bucketWinner effRank (devCands log d f)) = none) :
    resolveEffective gold log d c f base =
      match ovVal (bucketWinner effRank (cpsCands gold log c f)) with
      | some v => v
      | none => base := by
  unfold resolveEffective
  rw [h]

theorem ovVal_some_nonempty (w : OverrideRow) (h : w.new_value ≠ "") :
    ovVal (some w) = some w.new_value := by
  simp [ovVal, nullifEmpty, h]

theorem ovVal_some_empty (w : OverrideRow) (h : w.new_value = "") :
    ovVal (some w) = none := by
  simp [ovVal, nullifEmpty, h]

/-! ### C2: empty-string overrides -/

/-- C2 counterexample data: two validated device-scope overrides on the same
device and field; `id=1` sets `"X"` at time 1, `id=2` clears to `""` at
time 2. -/
def c2e1 : OverrideRow := ⟨1, "d", "g", "vendor", "X", true, some false, 1⟩

def c2e2 : OverrideRow := ⟨2, "d", "g", "vendor", "", true, some false, 2⟩

def c2gold : List GoldRow := [⟨"d", "g"⟩]

/-- C2 is false on the code: the blank entry `id=2` wins the device bucket
(it is newer), so the device bucket contributes NULL and resolution falls to
the base value `"B"`; with the blank entry removed the bucket winner is
`id=1` and resolution returns `"X"`.  The blank entry therefore does affect
resolution, because the `ROW_NUMBER` partition includes blank entries. -/
theorem c2_counterexample :
    resolveEffective c2gold [c2e1, c2e2] "d" "g" "vendor" "B" = "B" ∧
    resolveEffective c2gold [c2e1] "d" "g" "vendor" "B" = "X" ∧
    ("B" : String) ≠ "X" := by
  refine ⟨by decide, by decide, by decide⟩

/-- C2 amended: an empty-string override never supplies a resolved value —
whenever the winning candidate of a scope bucket has an empty `new_value`,
resolution falls through to the next-precedence source (group bucket, then
base) exactly as if the bucket were empty.  However, the blank entry still
participates in bucket-winner selection, so removing it from the log can
change the result (see the counterexample). -/
theorem c2_blank_winner_falls_through (gold : List GoldRow)
    (log : List OverrideRow) (d c f base : String) (w : OverrideRow)
    (hw : bucketWinner effRank (devCands log d f) = some w)
    (hb : w.new_value = "") :
    resolveEffective gold log d c f base =
      (match ovVal (bucketWinner effRank (cpsCands gold log c f)) with
       | some v => v
       | none => base) ∧
    (∀ w2, bucketWinner effRank (cpsCands gold log c f) = some w2 →
      w2.new_value = "" → resolveEffective gold log d c f base = base) := by
  have hdev : ovVal (bucketWinner effRank (devCands log d f)) = none := by
    rw [hw]; exact ovVal_some_empty w hb
  constructor
  · exact resolveEffective_dev_null gold log d c f base hdev
  · intro w2 hw2 hb2
    rw [resolveEffective_dev_null gold log d c f base hdev, hw2,
      ovVal_some_empty w2 hb2]

/-- Witness for the amended C2 at the counterexample log: the blank winner
`id=2` makes the device bucket fall through to the base value. -/
theorem c2_blank_winner_falls_through_witness :
    resolveEffective c2gold [c2e1, c2e2] "d" "g" "vendor" "B" =
      (match ovVal (bucketWinner effRank (cpsCands c2gold [c2e1, c2e2] "g" "vendor")) with
       | some v => v
       | none => "B") ∧
    (∀ w2, bucketWinner effRank (cpsCands c2gold [c2e1, c2e2] "g" "vendor") = some w2 →
      w2.new_value = "" →
      resolveEffective c2gold [c2e1, c2e2] "d" "g" "vendor" "B" = "B") :=
  c2_blank_winner_falls_through c2gold [c2e1, c2e2] "d" "g" "vendor" "B" c2e2
    (by decide) (by decide)

/-! ### C5: device-scope precedence -/

/-- C5 counterexample data: device `d` has a non-empty unvalidated override
`id=1` (`"X"`, time 1) and a blank validated override `id=2` (time 2) on the
same field; the group has an override `"G"` written by device `d0`. -/
def c5e1 : OverrideRow := ⟨1, "d", "g", "vendor", "X", false, some false, 1⟩

def c5e2 : OverrideRow := ⟨2, "d", "g", "vendor", "", true, some false, 2⟩

def c5e3 : OverrideRow := ⟨3, "d0", "g", "vendor", "G", true, some true, 0⟩

def c5log : List OverrideRow := [c5e1, c5e2, c5e3]

def c5gold : List GoldRow := [⟨"d0", "g"⟩, ⟨"d", "g"⟩]

/-- C5 is false on the code: the non-empty device-scope override `id=1`
does not determine the resolved value, because the blank validated override
`id=2` outranks it in the device bucket (`is_validated DESC` comes before
`changed_at`), contributes NULL, and the COALESCE falls through to the
group-scope value `"G"`. -/
theorem c5_counterexample :
    c5e1 ∈ c5log ∧ devScope c5e1 = true ∧ c5e1.device_uuid = "d" ∧
    c5e1.new_value ≠ "" ∧
    resolveEffective c5gold c5log "d" "g" "vendor" "B" = "G" ∧
    resolveEffective c5gold c5log "d" "g" "vendor" "B" ≠ c5e1.new_value := by
  refine ⟨by decide, by decide, by decide, by decide, by decide, by decide⟩

/-- C5 amended: the device bucket's winning candidate, when its value is
non-empty, always determines the resolved value of its field for its device,
winning over any group-scope override and over the base value, regardless of
the timestamps of any entries in the log.  (A non-empty device-scope entry
that is not its bucket's winner can be shadowed by a blank newer or validated
entry — see the counterexample.) -/
theorem c5_device_winner_nonempty_wins (gold : List GoldRow)
    (log : List OverrideRow) (d c f base : String) (w : OverrideRow)
    (hw : bucketWinner effRank (devCands log d f) = some w)
    (hne : w.new_value ≠ "") :
    resolveEffective gold log d c f base = w.new_value := by
  apply resolveEffective_dev_val
  rw [hw]
  exact ovVal_some_nonempty w hne

/-- Witness for the amended C5: a log whose device-bucket winner `id=2` is
non-empty resolves to that winner's value. -/
theorem c5_device_winner_nonempty_wins_witness :
    resolveEffective c5gold [c5e1, ⟨2, "d", "g", "vendor", "Y", true, some false, 2⟩, c5e3]
      "d" "g" "vendor" "B" =
      (⟨2, "d", "g", "vendor", "Y", true, some false, 2⟩ : OverrideRow).new_value :=
  c5_device_winner_nonempty_wins c5gold
    [c5e1, ⟨2, "d", "g", "vendor", "Y", true, some false, 2⟩, c5e3]
    "d" "g" "vendor" "B" ⟨2, "d", "g", "vendor", "Y", true, some false, 2⟩
    (by decide) (by decide)

/-! ### C6: group propagation -/

/-- Looking up a row's group is unchanged by appending a gold row for a fresh
device, since the `latest_cps_id` join keys on the override's originating
`device_uuid`. -/
theorem rowCps_append_fresh (gold : List GoldRow) (r : OverrideRow)
    (d2 c : String) (h : r.device_uuid ≠ d2) :
    rowCps (gold ++ [⟨d2, c⟩]) r = rowCps gold r := by
  unfold rowCps
  rw [List.find?_append]
  have hbe : (d2 == r.device_uuid) = false := by
    rw [beq_eq_false_iff_ne]
    exact fun hc => h hc.symm
  cases hf : gold.find? (fun g => g.device_uuid == r.device_uuid) <;>
    simp [hf, List.find?, hbe]

theorem cpsCands_append_fresh (gold : List GoldRow) (log : List OverrideRow)
    (c f d2 c2 : String) (h : ∀ r ∈ log, r.device_uuid ≠ d2) :
    cpsCands (gold ++ [⟨d2, c2⟩]) log c f = cpsCands gold log c f := by
  unfold cpsCands
  apply List.filter_congr
  intro r hr
  rw [rowCps_append_fresh gold r d2 c2 (h r hr)]

theorem devCands_nil_of_fresh (log : List OverrideRow) (d2 f : String)
    (h : ∀ r ∈ log, r.device_uuid ≠ d2) :
    devCands log d2 f = [] := by
  unfold devCands
  rw [List.filter_eq_nil_iff]
  intro r hr
  simp [h r hr]

/-- C6 counterexample data, part one: a blank group-scope override. -/
def c6blank : OverrideRow := ⟨1, "d0", "g", "category", "", true, some true, 1⟩

/-- C6 counterexample data, part two: a group-scope override `"Y"` shadowed
by a newer one `"Z"` on the same group and field. -/
def c6y : OverrideRow := ⟨1, "d0", "g", "category", "Y", true, some true, 1⟩

def c6z : OverrideRow := ⟨2, "d0", "g", "category", "Z", true, some true, 2⟩

def c6gold : List GoldRow := [⟨"d0", "g"⟩, ⟨"d", "g"⟩]

/-- C6 is false on the code as stated: (i) with a blank group-scope override
in the log, the member device `d` (which has no device-scope override at all)
resolves to the base value, not to that override's value; (ii) with two
group-scope overrides, resolution returns the newer one's value, not the
older override's value, although the older one "is in the log". -/
theorem c6_counterexample :
    (resolveEffective c6gold [c6blank] "d" "g" "category" "B" = "B" ∧
      ("B" : String) ≠ c6blank.new_value) ∧
    (c6y ∈ [c6y, c6z] ∧
      resolveEffective c6gold [c6y, c6z] "d" "g" "category" "B" = "Z" ∧
      ("Z" : String) ≠ c6y.new_value) := by
  refine ⟨⟨by decide, by decide⟩, by decide, by decide, by decide⟩

/-- C6 amended: after a group-scope override for group `G` and field `X` is
in the log, *if it is the winning candidate of its group bucket and its value
is non-empty*, resolution returns its value for every device of `G` whose
device bucket contributes no non-empty winner; and a device added to `G`
afterward (a fresh gold row, no log entry mentioning it) inherits the same
value with no additional write. -/
theorem c6_group_winner_propagates (gold : List GoldRow)
    (log : List OverrideRow) (c f base : String) (w : OverrideRow)
    (hw : bucketWinner effRank (cpsCands gold log c f) = some w)
    (hne : w.new_value ≠ "") :
    (∀ d, ovVal (bucketWinner effRank (devCands log d f)) = none →
        resolveEffective gold log d c f base = w.new_value) ∧
    (∀ d2, (∀ r ∈ log, r.device_uuid ≠ d2) →
        resolveEffective (gold ++ [⟨d2, c⟩]) log d2 c f base = w.new_value) := by
  constructor
  · intro d hdev
    rw [resolveEffective_dev_null gold log d c f base hdev, hw,
      ovVal_some_nonempty w hne]
  · intro d2 hfresh
    have hdev : ovVal (bucketWinner effRank (devCands log d2 f)) = none := by
      rw [devCands_nil_of_fresh log d2 f hfresh]
      rfl
    rw [resolveEffective_dev_null (gold ++ [GoldRow.mk d2 c]) log d2 c f base hdev,
      cpsCands_append_fresh gold log c f d2 c hfresh, hw,
      ovVal_some_nonempty w hne]

/-- Witness for the amended C6: the winning group override `"Z"` propagates
to member device `d` and to a freshly added device `d9`. -/
theorem c6_group_winner_propagates_witness :
    (∀ d, ovVal (bucketWinner effRank (devCands [c6y, c6z] d "category")) = none →
        resolveEffective c6gold [c6y, c6z] d "g" "category" "B" = c6z.new_value) ∧
    (∀ d2, (∀ r ∈ [c6y, c6z], r.device_uuid ≠ d2) →
        resolveEffective (c6gold ++ [⟨d2, "g"⟩]) [c6y, c6z] d2 "g" "category" "B" =
          c6z.new_value) :=
  c6_group_winner_propagates c6gold [c6y, c6z] "g" "category" "B" c6z
    (by decide) (by decide)

/-! ### C4: the validated view as a refinement of the effective view -/

theorem valDevCands_eq (log : List OverrideRow) (d f : String) :
    valDevCands log d f = (devCands log d f).filter (fun r => r.is_validated) := by
  induction log with
  | nil => rfl
  | cons x t ih =>
    unfold valDevCands devCands at *
    simp only [List.filter_cons]
    cases h1 : x.device_uuid == d <;> cases h2 : x.field_name == f <;>
      cases h3 : devScope x <;> cases h4 : x.is_validated <;>
      simp_all [List.filter_cons]

theorem valCpsCands_eq (gold : List GoldRow) (log : List OverrideRow)
    (c f : String) :
    valCpsCands gold log c f =
      (cpsCands gold log c f).filter (fun r => r.is_validated) := by
  induction log with
  | nil => rfl
  | cons x t ih =>
    unfold valCpsCands cpsCands at *
    simp only [List.filter_cons]
    cases h1 : x.field_name == f <;> cases h2 : grpScope x <;>
      cases h3 : rowCps gold x == some c <;> cases h4 : x.is_validated <;>
      simp_all [List.filter_cons]

/-- Between two validated rows, the effective ordering reduces to the
validated ordering (its leading `is_validated DESC` key ties). -/
theorem effRank_to_valRank (a b : OverrideRow) (ha : a.is_validated = true)
    (hb : b.is_validated = true) (h : effRank a b = true) : valRank a b = true := by
  unfold effRank at h
  unfold valRank
  rw [ha, hb] at h
  simpa using h

theorem valRank_antisym (a b : OverrideRow) (h1 : valRank a b = true)
    (h2 : valRank b a = true) : a.changed_at = b.changed_at ∧ a.id = b.id := by
  unfold valRank at h1 h2
  split_ifs at h1 h2 <;> try simp_all
  all_goals omega

theorem mem_eq_of_id_eq (l : List OverrideRow)
    (hnd : l.Pairwise (fun a b => a.id ≠ b.id)) (v w : OverrideRow)
    (hv : v ∈ l) (hw : w ∈ l) (hid : v.id = w.id) : v = w := by
  by_contra hne
  have hsym : Symmetric (fun a b : OverrideRow => a.id ≠ b.id) := by
    intro x y h he
    exact h he.symm
  exact (List.Pairwise.forall hsym hnd hv hw hne) hid

theorem ovVal_some_inv (o : Option OverrideRow) (v : String)
    (h : ovVal o = some v) : ∃ w, o = some w ∧ w.new_value = v := by
  cases o with
  | none => simp [ovVal] at h
  | some w =>
    by_cases hb : w.new_value = ""
    · simp [ovVal, nullifEmpty, hb] at h
    · simp [ovVal, nullifEmpty, hb] at h
      exact ⟨w, rfl, h⟩

/-- Within one bucket: if the effective-mode winner is validated, then the
validated-mode winner of the same partition is that same row (given distinct
ids, which the log's monotonic id column guarantees). -/
theorem validated_winner_agrees (cands : List OverrideRow)
    (hnd : cands.Pairwise (fun a b => a.id ≠ b.id)) (w v : OverrideRow)
    (hw : bucketWinner effRank cands = some w)
    (hwv : w.is_validated = true)
    (hv : bucketWinner valRank (cands.filter (fun r => r.is_validated)) = some v) :
    v = w := by
  obtain ⟨hwmem, hwmax⟩ := effWinner_spec cands w hw
  obtain ⟨hvmem, hvmax⟩ := valWinner_spec _ v hv
  have hvc : v ∈ cands := (List.mem_filter.mp hvmem).1
  have hvval : v.is_validated = true := by
    have h2 := (List.mem_filter.mp hvmem).2
    simpa using h2
  have hwsub : w ∈ cands.filter (fun r => r.is_validated) :=
    List.mem_filter.mpr ⟨hwmem, by simp [hwv]⟩
  have h1 : valRank v w = true := hvmax w hwsub
  have h2 : valRank w v = true :=
    effRank_to_valRank w v hwv hvval (hwmax v hvc)
  obtain ⟨_, hid⟩ := valRank_antisym v w h1 h2
  exact mem_eq_of_id_eq cands hnd v w hvc hwmem hid

/-- Any value the validated resolution produces from an override comes from a
validated row of the log. -/
theorem validated_value_source (gold : List GoldRow) (log : List OverrideRow)
    (d c f base : String) :
    resolveValidated gold log d c f base = base ∨
      ∃ r ∈ log, r.is_validated = true ∧
        resolveValidated gold log d c f base = r.new_value := by
  unfold resolveValidated
  cases hdev : ovVal (bucketWinner valRank (valDevCands log d f)) with
  | some v =>
    obtain ⟨w, hw, hval⟩ := ovVal_some_inv _ v hdev
    obtain ⟨hwmem, _⟩ := valWinner_spec _ w hw
    have hmem := List.mem_filter.mp (by
      rw [valDevCands_eq] at hwmem
      exact hwmem)
    refine Or.inr ⟨w, List.mem_filter.mp (by
      unfold devCands at hmem
      exact hmem.1) |>.1, by simpa using hmem.2, by simp [hval]⟩
  | none =>
    cases hcps : ovVal (bucketWinner valRank (valCpsCands gold log c f)) with
    | some v =>
      obtain ⟨w, hw, hval⟩ := ovVal_some_inv _ v hcps
      obtain ⟨hwmem, _⟩ := valWinner_spec _ w hw
      have hmem := List.mem_filter.mp (by
        rw [valCpsCands_eq] at hwmem
        exact hwmem)
      refine Or.inr ⟨w, List.mem_filter.mp (by
        unfold cpsCands at hmem
        exact hmem.1) |>.1, by simpa using hmem.2, by simp [hval]⟩
    | none => exact Or.inl rfl

/-- C4, amended: `effective_validated` never selects an unvalidated entry —
every override-sourced value comes from a validated row; both scope buckets
discard unvalidated candidates and order the rest by `changed_at` descending
then `id` descending; and whenever the effective-mode bucket winner is
validated, the validated view selects that same entry.  (The original
claim's word "older" is dropped: when the effective winner is unvalidated
its bucket has no validated candidate at all, and the lower-precedence
validated entry that then wins may be newer — see the counterexample.) -/
theorem c4_validated_refinement (gold : List GoldRow) (log : List OverrideRow)
    (d c f base : String)
    (hnd : log.Pairwise (fun a b => a.id ≠ b.id)) :
    (resolveValidated gold log d c f base = base ∨
      ∃ r ∈ log, r.is_validated = true ∧
        resolveValidated gold log d c f base = r.new_value) ∧
    (∀ w, bucketWinner valRank (valDevCands log d f) = some w →
        w.is_validated = true ∧ ∀ e ∈ valDevCands log d f, valRank w e = true) ∧
    (∀ w, bucketWinner valRank (valCpsCands gold log c f) = some w →
        w.is_validated = true ∧ ∀ e ∈ valCpsCands gold log c f, valRank w e = true) ∧
    (∀ w v, bucketWinner effRank (devCands log d f) = some w →
        w.is_validated = true →
        bucketWinner valRank (valDevCands log d f) = some v → v = w) ∧
    (∀ w v, bucketWinner effRank (cpsCands gold log c f) = some w →
        w.is_validated = true →
        bucketWinner valRank (valCpsCands gold log c f) = some v → v = w) := by
  refine ⟨validated_value_source gold log d c f base, ?_, ?_, ?_, ?_⟩
  · intro w hw
    obtain ⟨hwmem, hwmax⟩ := valWinner_spec _ w hw
    refine ⟨?_, hwmax⟩
    have h2 := (List.mem_filter.mp hwmem).2
    simp at h2
    exact h2.2
  · intro w hw
    obtain ⟨hwmem, hwmax⟩ := valWinner_spec _ w hw
    refine ⟨?_, hwmax⟩
    have h2 := (List.mem_filter.mp hwmem).2
    simp at h2
    exact h2.2
  · intro w v hw hwv hv
    rw [valDevCands_eq] at hv
    exact validated_winner_agrees (devCands log d f)
      (List.Pairwise.filter _ hnd) w v hw hwv hv
  · intro w v hw hwv hv
    rw [valCpsCands_eq] at hv
    exact validated_winner_agrees (cpsCands gold log c f)
      (List.Pairwise.filter _ hnd) w v hw hwv hv

/-- C4 counterexample data: an unvalidated device-scope override `"X"` at
time 1 and a validated group-scope override `"Y"` at time 2. -/
def c4e1 : OverrideRow := ⟨1, "d", "g", "category", "X", false, some false, 1⟩

def c4e2 : OverrideRow := ⟨2, "d0", "g", "category", "Y", true, some true, 2⟩

def c4log : List OverrideRow := [c4e1, c4e2]

def c4gold : List GoldRow := [⟨"d0", "g"⟩, ⟨"d", "g"⟩]

/-- C4 as stated is false on the code: when the effective winner (`id=1`,
unvalidated, time 1) is dropped, the validated view does not select an
*older* validated entry — it selects the group-scope entry `id=2`, which is
strictly newer (`changed_at` 2 > 1). -/
theorem c4_counterexample :
    bucketWinner effRank (devCands c4log "d" "category") = some c4e1 ∧
    c4e1.is_validated = false ∧
    resolveEffective c4gold c4log "d" "g" "category" "B" = c4e1.new_value ∧
    bucketWinner valRank (valCpsCands c4gold c4log "g" "category") = some c4e2 ∧
    resolveValidated c4gold c4log "d" "g" "category" "B" = c4e2.new_value ∧
    c4e1.changed_at < c4e2.changed_at := by
  refine ⟨by decide, by decide, by decide, by decide, by decide, by decide⟩

/-- Witness for the amended C4 at the counterexample data. -/
theorem c4_validated_refinement_witness :
    (resolveValidated c4gold c4log "d" "g" "category" "B" = "B" ∨
      ∃ r ∈ c4log, r.is_validated = true ∧
        resolveValidated c4gold c4log "d" "g" "category" "B" = r.new_value) ∧
    (∀ w, bucketWinner valRank (valDevCands c4log "d" "category") = some w →
        w.is_validated = true ∧
        ∀ e ∈ valDevCands c4log "d" "category", valRank w e = true) ∧
    (∀ w, bucketWinner valRank (valCpsCands c4gold c4log "g" "category") = some w →
        w.is_validated = true ∧
        ∀ e ∈ valCpsCands c4gold c4log "g" "category", valRank w e = true) ∧
    (∀ w v, bucketWinner effRank (devCands c4log "d" "category") = some w →
        w.is_validated = true →
        bucketWinner valRank (valDevCands c4log "d" "category") = some v → v = w) ∧
    (∀ w v, bucketWinner effRank (cpsCands c4gold c4log "g" "category") = some w →
        w.is_validated = true →
        bucketWinner valRank (valCpsCands c4gold c4log "g" "category") = some v →
        v = w) :=
  c4_validated_refinement c4gold c4log "d" "g" "category" "B" (by decide)

/-! ### C3: the risk_score numeric cast -/

/-- Group-scope candidates as `update_view_for_apply_for_all.sql` computes
them: that migration's `latest_cps_id` CTE reads the denormalized `u.cps_id`
column (`PARTITION BY u.cps_id, u.field_name`, `WHERE u.apply_for_all =
TRUE`) instead of joining to the gold table. -/
def cpsCandsDenorm (log : List OverrideRow) (c f : String) : List OverrideRow :=
  log.filter (fun r => r.cps_id == c && r.field_name == f && grpScope r)

def splitDot : List Char → (List Char × Option (List Char))
  | [] => ([], none)
  | '.' :: t => ([], some t)
  | ch :: t =>
    let p := splitDot t
    (ch :: p.1, p.2)

def digitsVal (ds : List Char) : Nat :=
  ds.foldl (fun a ch => a * 10 + (ch.toNat - 48)) 0

/-- Parsing of a Postgres `numeric` input literal: optional sign, decimal
digits with at most one decimal point and at least one digit.  (Postgres
also trims whitespace and accepts exponents and `NaN`; those forms do not
occur in the cited values and are rejected here like any other non-digit
text.)  `none` models the `invalid input syntax for type numeric` error. -/
def parseNumeric (s : String) : Option Rat :=
  let cs := s.data
  let signAndRest : Bool × List Char :=
    match cs with
    | '-' :: t => (true, t)
    | '+' :: t => (false, t)
    | t => (false, t)
  let parts := splitDot signAndRest.2
  let ip := parts.1
  let fp := (parts.2).getD []
  if ip.all Char.isDigit && fp.all Char.isDigit && !(ip.isEmpty && fp.isEmpty) then
    let q : Rat := (digitsVal (ip ++ fp) : Rat) / ((10 : Rat) ^ fp.length)
    some (if signAndRest.1 then -q else q)
  else none

/-- The cast `::numeric(4,1)`: round half away from zero to one decimal
place and require the result to fit precision 4, scale 1. -/
def numeric41 (q : Rat) : Option Rat :=
  let n : Int :=
    if 0 ≤ q then Int.floor (q * 10 + 1 / 2) else -Int.floor (-(q * 10) + 1 / 2)
  if n.natAbs ≤ 9999 then some ((n : Rat) / 10) else none

/-- The `risk_score` column of `cps.v_cps_catalog_effective` in
`update_view_for_apply_for_all.sql`:
`COALESCE(NULLIF(dev,''), NULLIF(cps,''), g.risk_score::text)::numeric(4,1)`.
The cast applies to the single COALESCE-selected text value; `none` models
the SQL error raised when that value does not parse.  When both override
buckets contribute NULL, the cast re-parses the text form of the base
`numeric(4,1)` column, which round-trips to the base value. -/
def resolveRiskScore (log : List OverrideRow) (d c : String) (base : Rat) :
    Option Rat :=
  match ovVal (bucketWinner effRank (devCands log d "risk_score")) with
  | some s => (parseNumeric s).bind numeric41
  | none =>
    match ovVal (bucketWinner effRank (cpsCandsDenorm log c "risk_score")) with
    | some s => (parseNumeric s).bind numeric41
    | none => some base

/-- C3 counterexample data: a device-scope `risk_score` override `"high"`
(unparseable) shadowing a parseable group-scope override `"7.5"`. -/
def c3e1 : OverrideRow := ⟨1, "d", "g", "risk_score", "high", true, some false, 2⟩

def c3e2 : OverrideRow := ⟨2, "dx", "g", "risk_score", "7.5", true, some true, 1⟩

def c3log : List OverrideRow := [c3e1, c3e2]

/-- C3 is false on the code: the `::numeric(4,1)` cast applies to the single
value selected by the COALESCE chain, so an unparseable device-scope value
makes the `risk_score` computation fail (the SQL query errors); the engine
does not fall through to the group-scope candidate `7.5`, nor to the base
value `5`. -/
theorem c3_counterexample :
    parseNumeric "high" = none ∧
    parseNumeric "7.5" = some ((15 : Rat) / 2) ∧
    resolveRiskScore c3log "d" "g" 5 = none ∧
    resolveRiskScore c3log "d" "g" 5 ≠ some ((15 : Rat) / 2) ∧
    resolveRiskScore c3log "d" "g" 5 ≠ some (5 : Rat) := by
  refine ⟨by decide, ?_, by decide, by decide, by decide⟩
  have h : "7.5".data = ['7', '.', '5'] := rfl
  simp [parseNumeric, h, splitDot, digitsVal]
  norm_num

/-- C3 amended: when the COALESCE-selected textual `risk_score` value fails
to parse as a number, resolution of the record yields a cast error (`none`),
with no fallthrough to the next-precedence candidate or to the base value. -/
theorem c3_parse_failure_errors (log : List OverrideRow) (d c : String)
    (base : Rat) (s : String) (hp : parseNumeric s = none) :
    (ovVal (bucketWinner effRank (devCands log d "risk_score")) = some s →
      resolveRiskScore log d c base = none) ∧
    (ovVal (bucketWinner effRank (devCands log d "risk_score")) = none →
      ovVal (bucketWinner effRank (cpsCandsDenorm log c "risk_score")) = some s →
      resolveRiskScore log d c base = none) := by
  constructor
  · intro hdev
    unfold resolveRiskScore
    rw [hdev]
    show (parseNumeric s).bind numeric41 = none
    rw [hp]
    rfl
  · intro hdev hcps
    unfold resolveRiskScore
    rw [hdev, hcps]
    show (parseNumeric s).bind numeric41 = none
    rw [hp]
    rfl

/-- Witness for the amended C3 at the counterexample log. -/
theorem c3_parse_failure_errors_witness :
    (ovVal (bucketWinner effRank (devCands c3log "d" "risk_score")) = some "high" →
      resolveRiskScore c3log "d" "g" 5 = none) ∧
    (ovVal (bucketWinner effRank (devCands c3log "d" "risk_score")) = none →
      ovVal (bucketWinner effRank (cpsCandsDenorm c3log "g" "risk_score")) = some "high" →
      resolveRiskScore c3log "d" "g" 5 = none) :=
  c3_parse_failure_errors c3log "d" "g" 5 "high" (by decide)

/-! ### C10: NULL apply_for_all behaves as FALSE -/

/-- Replace a NULL `apply_for_all` with FALSE, leaving every other column
unchanged. -/
def fixNull (r : OverrideRow) : OverrideRow :=
  match r.apply_for_all with
  | none => { r with apply_for_all := some false }
  | some _ => r

theorem fixNull_fields (r : OverrideRow) :
    (fixNull r).id = r.id ∧ (fixNull r).device_uuid = r.device_uuid ∧
    (fixNull r).cps_id = r.cps_id ∧ (fixNull r).field_name = r.field_name ∧
    (fixNull r).new_value = r.new_value ∧
    (fixNull r).is_validated = r.is_validated ∧
    (fixNull r).changed_at = r.changed_at := by
  cases h : r.apply_for_all <;> simp [fixNull, h]

theorem devScope_fixNull (r : OverrideRow) : devScope (fixNull r) = devScope r := by
  cases h : r.apply_for_all <;> simp [fixNull, devScope, h]

theorem grpScope_fixNull (r : OverrideRow) : grpScope (fixNull r) = grpScope r := by
  cases h : r.apply_for_all <;> simp [fixNull, grpScope, h]

theorem effRank_fixNull (a b : OverrideRow) :
    effRank (fixNull a) (fixNull b) = effRank a b := by
  obtain ⟨_, _, _, _, _, hv1, ht1⟩ := fixNull_fields a
  obtain ⟨_, _, _, _, _, hv2, ht2⟩ := fixNull_fields b
  unfold effRank
  rw [hv1, hv2, ht1, ht2, (fixNull_fields a).1, (fixNull_fields b).1]

theorem valRank_fixNull (a b : OverrideRow) :
    valRank (fixNull a) (fixNull b) = valRank a b := by
  obtain ⟨hi1, _, _, _, _, _, ht1⟩ := fixNull_fields a
  obtain ⟨hi2, _, _, _, _, _, ht2⟩ := fixNull_fields b
  unfold valRank
  rw [hi1, hi2, ht1, ht2]

theorem filter_map_fixNull (p : OverrideRow → Bool)
    (hp : ∀ r, p (fixNull r) = p r) (l : List OverrideRow) :
    (l.map fixNull).filter p = (l.filter p).map fixNull := by
  induction l with
  | nil => rfl
  | cons x t ih =>
    simp only [List.map_cons, List.filter_cons, hp x]
    cases hx : p x <;> simp [hx, ih]

theorem foldl_pick_map_fixNull (rank : OverrideRow → OverrideRow → Bool)
    (hr : ∀ a b, rank (fixNull a) (fixNull b) = rank a b)
    (l : List OverrideRow) (acc : Option OverrideRow) :
    (l.map fixNull).foldl (pick rank) (acc.map fixNull) =
      ((l.foldl (pick rank) acc).map fixNull) := by
  induction l generalizing acc with
  | nil => rfl
  | cons x t ih =>
    have hstep : pick rank (acc.map fixNull) (fixNull x) =
        (pick rank acc x).map fixNull := by
      cases acc with
      | none => rfl
      | some a =>
        show (if rank (fixNull a) (fixNull x) = true then some (fixNull a)
            else some (fixNull x)) =
          Option.map fixNull (if rank a x = true then some a else some x)
        rw [hr a x]
        cases hax : rank a x <;> simp [hax]
    simp only [List.map_cons, List.foldl_cons, hstep]
    exact ih (pick rank acc x)

theorem bucketWinner_map_fixNull (rank : OverrideRow → OverrideRow → Bool)
    (hr : ∀ a b, rank (fixNull a) (fixNull b) = rank a b)
    (l : List OverrideRow) :
    bucketWinner rank (l.map fixNull) = (bucketWinner rank l).map fixNull := by
  unfold bucketWinner
  have h := foldl_pick_map_fixNull rank hr l none
  simpa using h

theorem ovVal_map_fixNull (o : Option OverrideRow) :
    ovVal (o.map fixNull) = ovVal o := by
  cases o with
  | none => rfl
  | some r =>
    obtain ⟨_, _, _, _, hv, _, _⟩ := fixNull_fields r
    simp [ovVal, hv]

theorem rowCps_fixNull (gold : List GoldRow) (r : OverrideRow) :
    rowCps gold (fixNull r) = rowCps gold r := by
  obtain ⟨_, hu, _, _, _, _, _⟩ := fixNull_fields r
  unfold rowCps
  rw [hu]

/-- C10: a log row whose `apply_for_all` column is NULL is treated by both
resolution views exactly like a device-scope row (`apply_for_all = FALSE`):
replacing NULL with FALSE throughout the log changes no resolved value in
either `effective` or `effective_validated` mode, for any base table,
device, field and base value. -/
theorem c10_null_apply_for_all_is_device_scope (gold : List GoldRow)
    (log : List OverrideRow) (d c f base : String) :
    resolveEffective gold (log.map fixNull) d c f base =
      resolveEffective gold log d c f base ∧
    resolveValidated gold (log.map fixNull) d c f base =
      resolveValidated gold log d c f base := by
  have hdev : devCands (log.map fixNull) d f = (devCands log d f).map fixNull := by
    unfold devCands
    apply filter_map_fixNull
    intro r
    obtain ⟨_, hu, _, hf, _, _, _⟩ := fixNull_fields r
    rw [hu, hf, devScope_fixNull]
  have hcps : cpsCands gold (log.map fixNull) c f =
      (cpsCands gold log c f).map fixNull := by
    unfold cpsCands
    apply filter_map_fixNull
    intro r
    rw [(fixNull_fields r).2.2.2.1, grpScope_fixNull, rowCps_fixNull]
  have hvdev : valDevCands (log.map fixNull) d f =
      (valDevCands log d f).map fixNull := by
    unfold valDevCands
    apply filter_map_fixNull
    intro r
    obtain ⟨_, hu, _, hf, _, hv, _⟩ := fixNull_fields r
    rw [hu, hf, hv, devScope_fixNull]
  have hvcps : valCpsCands gold (log.map fixNull) c f =
      (valCpsCands gold log c f).map fixNull := by
    unfold valCpsCands
    apply filter_map_fixNull
    intro r
    obtain ⟨_, _, _, hf, _, hv, _⟩ := fixNull_fields r
    rw [hf, hv, grpScope_fixNull, rowCps_fixNull]
  constructor
  · unfold resolveEffective
    rw [hdev, hcps, bucketWinner_map_fixNull effRank effRank_fixNull,
      bucketWinner_map_fixNull effRank effRank_fixNull,
      ovVal_map_fixNull, ovVal_map_fixNull]
  · unfold resolveValidated
    rw [hvdev, hvcps, bucketWinner_map_fixNull valRank valRank_fixNull,
      bucketWinner_map_fixNull valRank valRank_fixNull,
      ovVal_map_fixNull, ovVal_map_fixNull]

/-! ### C7: revert as delete -/

/-- Modelled from the spec: the backend handler of `DELETE /api/changes/:id`
is not among the repository sources — only its axios client
(`catalogAPI.deleteChange`) and the frontend caller (`handleRevert` in
`ChangesLog.jsx`) are.  Per the spec, `Delete(id)` removes the entry with
that id and fails with `NotFound` when it is absent; `none` models the
`NotFound` error. -/
def deleteChange (log : List OverrideRow) (i : Nat) :
    Option (List OverrideRow) :=
  if log.any (fun r => r.id == i) then
    some (log.filter (fun r => r.id != i))
  else none

/-- C7: revert is delete-only and idempotent in effect — deleting an existing
entry id succeeds and leaves exactly the log without that entry (no other
entry is touched), deleting the same id again reports `NotFound`, and every
field of every device then resolves over the log with the entry removed,
i.e. as if the entry never existed. -/
theorem c7_revert_delete_idempotent (log : List OverrideRow) (i : Nat)
    (hin : log.any (fun r => r.id == i) = true) :
    ∃ log2, deleteChange log i = some log2 ∧
      log2 = log.filter (fun r => r.id != i) ∧
      deleteChange log2 i = none ∧
      (∀ gold d c f base, resolveEffective gold log2 d c f base =
        resolveEffective gold (log.filter (fun r => r.id != i)) d c f base) ∧
      (∀ gold d c f base, resolveValidated gold log2 d c f base =
        resolveValidated gold (log.filter (fun r => r.id != i)) d c f base) := by
  refine ⟨log.filter (fun r => r.id != i), ?_, rfl, ?_, fun _ _ _ _ _ => rfl,
    fun _ _ _ _ _ => rfl⟩
  · unfold deleteChange
    rw [if_pos hin]
  · unfold deleteChange
    rw [if_neg]
    intro hany
    obtain ⟨r, hr, hid⟩ := List.any_eq_true.mp hany
    have h2 := (List.mem_filter.mp hr).2
    simp only [bne_iff_ne, ne_eq] at h2
    simp only [beq_iff_eq] at hid
    exact h2 hid

/-- Witness for C7: deleting entry `id=2` from the C2 log removes exactly
that entry, and a second delete reports `NotFound`. -/
theorem c7_revert_delete_idempotent_witness :
    ∃ log2, deleteChange [c2e1, c2e2] 2 = some log2 ∧
      log2 = [c2e1, c2e2].filter (fun r => r.id != 2) ∧
      deleteChange log2 2 = none ∧
      (∀ gold d c f base, resolveEffective gold log2 d c f base =
        resolveEffective gold ([c2e1, c2e2].filter (fun r => r.id != 2)) d c f base) ∧
      (∀ gold d c f base, resolveValidated gold log2 d c f base =
        resolveValidated gold ([c2e1, c2e2].filter (fun r => r.id != 2)) d c f base) :=
  c7_revert_delete_idempotent [c2e1, c2e2] 2 (by decide)

/-! ### C8: submit-side field validation -/

/-- Modelled from the spec: the error kinds of the submit path
(`InvalidField` for an unknown or protected field name, `InvalidValue` for a
failed coercion). -/
inductive SubmitError where
  | invalidField
  | invalidValue
  deriving Repr, DecidableEq

/-- Modelled from the spec: the Field Type Registry's field set.  The backend
service holding it is not among the repository sources; the set is taken as
the editable per-field columns of the resolution views plus the identifier
columns the frontend displays. -/
def registryFields : List String :=
  ["vendor", "model", "cps_id", "manufacturer_product_code", "cps_vector",
   "hw_versions", "sw_versions", "os_names", "os_versions", "os_revisions",
   "is_eol", "potential_cves", "needs_vendor", "certified_patches",
   "pre_installed_applications", "links", "image_url", "category",
   "device_type", "network_type", "risk_score", "patching_responsibility"]

/-- The protected (read-only) fields: the frontend's `NON_EDITABLE_FIELDS`
list in the DeviceDetails page. -/
def protectedFields : List String :=
  ["vendor", "model", "cps_id", "cps_vector", "hw_versions", "sw_versions",
   "os_names", "os_versions", "os_revisions"]

/-- An edit submission (the payload of `POST /api/device/override`). -/
structure Submission where
  device_uuid : String
  cps_id : String
  field_name : String
  new_value : String
  is_validated : Bool
  apply_for_all : Bool
  deriving Repr, DecidableEq

/-- Modelled from the spec: `Append` / `SubmitOverride` — the backend route
is not among the repository sources.  It rejects an unknown or protected
`field_name` with `InvalidField` and a value failing the registry's coercion
rule (abstracted as the `coerceOk` parameter) with `InvalidValue`; on
success it appends one row with the next monotonic id. -/
def submitOverride (coerceOk : String → String → Bool)
    (log : List OverrideRow) (s : Submission) (nextId now : Nat) :
    Except SubmitError (List OverrideRow) :=
  if s.field_name ∉ registryFields ∨ s.field_name ∈ protectedFields then
    .error .invalidField
  else if ¬ coerceOk s.field_name s.new_value then
    .error .invalidValue
  else
    .ok (log ++ [⟨nextId, s.device_uuid, s.cps_id, s.field_name, s.new_value,
      s.is_validated, some s.apply_for_all, now⟩])

/-- C8: a submission whose `field_name` is unknown to the registry or is
protected/read-only is rejected with `InvalidField`, and no entry is
persisted to the override log (the operation never returns a log). -/
theorem c8_invalid_field_rejected (coerceOk : String → String → Bool)
    (log : List OverrideRow) (s : Submission) (nextId now : Nat)
    (h : s.field_name ∉ registryFields ∨ s.field_name ∈ protectedFields) :
    submitOverride coerceOk log s nextId now = .error .invalidField ∧
    ∀ log2, submitOverride coerceOk log s nextId now ≠ .ok log2 := by
  have he : submitOverride coerceOk log s nextId now = .error .invalidField := by
    unfold submitOverride
    rw [if_pos h]
  exact ⟨he, fun log2 hok => by rw [he] at hok; exact Except.noConfusion hok⟩

/-- Witness for C8: submitting to the protected field `vendor` is rejected. -/
theorem c8_invalid_field_rejected_witness :
    submitOverride (fun _ _ => true) [] ⟨"d", "g", "vendor", "X", false, false⟩ 1 1 =
      .error .invalidField ∧
    ∀ log2, submitOverride (fun _ _ => true) []
      ⟨"d", "g", "vendor", "X", false, false⟩ 1 1 ≠ .ok log2 :=
  c8_invalid_field_rejected (fun _ _ => true) []
    ⟨"d", "g", "vendor", "X", false, false⟩ 1 1 (Or.inr (by decide))

/-! ### C9: the changes-log listing -/

/-- One change entry as `GET /api/changes` returns it to the frontend: an
override row joined with enough base-record context (vendor) for display.
The JS page checks `apply_for_all === true`; the nullable column is again
`Option Bool`. -/
structure ChangeRow where
  id : Nat
  changed_at : Nat
  editor_user_name : String
  field_name : String
  vendor : String
  apply_for_all : Option Bool
  note : String
  deriving Repr, DecidableEq

/-- The filter state of the ChangesLog page: `dateRange.from` / `dateRange.to`
(null when unset) and the `editor` / `field_name` / `vendor` /
`apply_for_all` filters (empty string and null mean inactive). -/
structure LogFilters where
  fromDate : Option Nat
  toDate : Option Nat
  editor : String
  field_name : String
  vendor : String
  apply_for_all : Option Bool
  deriving Repr, DecidableEq

def leadMatch : List Char → List Char → Bool
  | [], _ => true
  | _ :: _, [] => false
  | a :: as, b :: bs => a == b && leadMatch as bs

def subMatch (needle : List Char) : List Char → Bool
  | [] => needle.isEmpty
  | ch :: t => leadMatch needle (ch :: t) || subMatch needle t

/-- JS `hay.toLowerCase().includes(needle.toLowerCase())`. -/
def strContains (hay needle : String) : Bool :=
  subMatch needle.toLower.data hay.toLower.data

/-- JS `toDate.setHours(23, 59, 59, 999)` on a millisecond timestamp,
modelled on UTC day boundaries. -/
def endOfDay (t : Nat) : Nat :=
  t - t % 86400000 + 86399999

/-- The date-range predicate: drop a change when it is before `from` or
after the end of `to`'s day. -/
def inDateRange (fl : LogFilters) (r : ChangeRow) : Bool :=
  (match fl.fromDate with
   | some a => decide (a ≤ r.changed_at)
   | none => true) &&
  (match fl.toDate with
   | some b => decide (r.changed_at ≤ endOfDay b)
   | none => true)

/-- Stage 1 of `applyFilters`: `if (dateRange.from || dateRange.to)`. -/
def applyDateFilter (fl : LogFilters) (data : List ChangeRow) : List ChangeRow :=
  if fl.fromDate.isSome || fl.toDate.isSome then data.filter (inDateRange fl)
  else data

/-- Stage 2 of `applyFilters`: `if (filters.editor)`, case-insensitive
substring match on the editor name. -/
def applyEditorFilter (fl : LogFilters) (data : List ChangeRow) : List ChangeRow :=
  if fl.editor != "" then
    data.filter (fun r => strContains r.editor_user_name fl.editor)
  else data

/-- Stage 3 of `applyFilters`: `if (filters.field_name)`. -/
def applyFieldFilter (fl : LogFilters) (data : List ChangeRow) : List ChangeRow :=
  if fl.field_name != "" then
    data.filter (fun r => strContains r.field_name fl.field_name)
  else data

/-- Stage 4 of `applyFilters`: `if (filters.vendor)`. -/
def applyVendorFilter (fl : LogFilters) (data : List ChangeRow) : List ChangeRow :=
  if fl.vendor != "" then
    data.filter (fun r => strContains r.vendor fl.vendor)
  else data

/-- Stage 5 of `applyFilters`: `if (filters.apply_for_all !== null)` keep the
rows whose `apply_for_all === true` status matches the switch. -/
def applyScopeFilter (fl : LogFilters) (data : List ChangeRow) : List ChangeRow :=
  match fl.apply_for_all with
  | none => data
  | some b => data.filter (fun r => (r.apply_for_all == some true) == b)

/-- The `applyFilters` function of `ChangesLog.jsx`: the five in-memory
filters applied in sequence, then `filtered.slice(0, 30)`. -/
def applyFilters (fl : LogFilters) (data : List ChangeRow) : List ChangeRow :=
  (applyScopeFilter fl
    (applyVendorFilter fl
      (applyFieldFilter fl
        (applyEditorFilter fl
          (applyDateFilter fl data))))).take 30

/-- The conjunction of the five filters, each neutralized when inactive. -/
def keepChange (fl : LogFilters) (r : ChangeRow) : Bool :=
  (!(fl.fromDate.isSome || fl.toDate.isSome) || inDateRange fl r) &&
  (!(fl.editor != "") || strContains r.editor_user_name fl.editor) &&
  (!(fl.field_name != "") || strContains r.field_name fl.field_name) &&
  (!(fl.vendor != "") || strContains r.vendor fl.vendor) &&
  (match fl.apply_for_all with
   | none => true
   | some b => (r.apply_for_all == some true) == b)

theorem filter_stage (g : Bool) (q : ChangeRow → Bool) (l : List ChangeRow) :
    (if g = true then l.filter q else l) = l.filter (fun r => !g || q r) := by
  cases g <;> simp

theorem applyDateFilter_eq (fl : LogFilters) (data : List ChangeRow) :
    applyDateFilter fl data =
      data.filter (fun r => !(fl.fromDate.isSome || fl.toDate.isSome) ||
        inDateRange fl r) :=
  filter_stage _ _ _

theorem applyEditorFilter_eq (fl : LogFilters) (data : List ChangeRow) :
    applyEditorFilter fl data =
      data.filter (fun r => !(fl.editor != "") ||
        strContains r.editor_user_name fl.editor) :=
  filter_stage _ _ _

theorem applyFieldFilter_eq (fl : LogFilters) (data : List ChangeRow) :
    applyFieldFilter fl data =
      data.filter (fun r => !(fl.field_name != "") ||
        strContains r.field_name fl.field_name) :=
  filter_stage _ _ _

theorem applyVendorFilter_eq (fl : LogFilters) (data : List ChangeRow) :
    applyVendorFilter fl data =
      data.filter (fun r => !(fl.vendor != "") ||
        strContains r.vendor fl.vendor) :=
  filter_stage _ _ _

theorem applyScopeFilter_eq (fl : LogFilters) (data : List ChangeRow) :
    applyScopeFilter fl data =
      data.filter (fun r =>
        match fl.apply_for_all with
        | none => true
        | some b => (r.apply_for_all == some true) == b) := by
  cases h : fl.apply_for_all with
  | none => simp [applyScopeFilter, h]
  | some b =>
    unfold applyScopeFilter
    rw [h]

/-- The sequential filters compose to a single pass with the conjunction of
their predicates, truncated to 30. -/
theorem applyFilters_eq (fl : LogFilters) (data : List ChangeRow) :
    applyFilters fl data = (data.filter (keepChange fl)).take 30 := by
  unfold applyFilters
  rw [applyDateFilter_eq, applyEditorFilter_eq, applyFieldFilter_eq,
    applyVendorFilter_eq, applyScopeFilter_eq,
    List.filter_filter, List.filter_filter, List.filter_filter,
    List.filter_filter]
  congr 1
  apply List.filter_congr
  intro r _
  unfold keepChange
  cases h5 : fl.apply_for_all <;>
    cases h1 : (!(fl.fromDate.isSome || fl.toDate.isSome) || inDateRange fl r) <;>
    cases h2 : (!(fl.editor != "") || strContains r.editor_user_name fl.editor) <;>
    cases h3 : (!(fl.field_name != "") || strContains r.field_name fl.field_name) <;>
    cases h4 : (!(fl.vendor != "") || strContains r.vendor fl.vendor) <;>
    simp_all

/-- The display ordering: most recent `changed_at` first, ties broken by
`id` descending. -/
def newerC (a b : ChangeRow) : Bool :=
  if a.changed_at ≠ b.changed_at then decide (b.changed_at < a.changed_at)
  else decide (b.id < a.id)

/-- C9: `applyFilters` applies the in-memory filters (date range, editor,
field name, vendor, scope) to the retrieved change entries and then
truncates to the limit of 30; when the entries arrive ordered most-recent
`changed_at` first with ties broken by `id` descending (modelled from the
spec: the backend `GET /api/changes` route is not among the repository
sources), the result is exactly the first 30 filtered entries under that
same ordering. -/
theorem c9_filters_then_truncates (fl : LogFilters) (data : List ChangeRow)
    (hs : data.Pairwise (fun a b => newerC a b = true)) :
    applyFilters fl data = (data.filter (keepChange fl)).take 30 ∧
    (applyFilters fl data).Pairwise (fun a b => newerC a b = true) ∧
    (∀ r ∈ applyFilters fl data, keepChange fl r = true) ∧
    (applyFilters fl data).length ≤ 30 := by
  have heq := applyFilters_eq fl data
  refine ⟨heq, ?_, ?_, ?_⟩
  · rw [heq]
    exact List.Pairwise.sublist
      ((List.take_sublist 30 _).trans (List.filter_sublist data)) hs
  · intro r hr
    rw [heq] at hr
    have hrf := (List.take_sublist 30 _).subset hr
    exact (List.mem_filter.mp hrf).2
  · rw [heq]
    simp [List.length_take]

/-- C9 witness data: two changes, the newer one first. -/
def c9r1 : ChangeRow := ⟨2, 5, "alice", "vendor", "Acme", some true, ""⟩

def c9r2 : ChangeRow := ⟨1, 3, "bob", "category", "Acme", none, ""⟩

/-- Witness for C9 at a concrete sorted list and the empty filter state. -/
theorem c9_filters_then_truncates_witness :
    applyFilters ⟨none, none, "", "", "", none⟩ [c9r1, c9r2] =
      ([c9r1, c9r2].filter (keepChange ⟨none, none, "", "", "", none⟩)).take 30 ∧
    (applyFilters ⟨none, none, "", "", "", none⟩ [c9r1, c9r2]).Pairwise
      (fun a b => newerC a b = true) ∧
    (∀ r ∈ applyFilters ⟨none, none, "", "", "", none⟩ [c9r1, c9r2],
      keepChange ⟨none, none, "", "", "", none⟩ r = true) ∧
    (applyFilters ⟨none, none, "", "", "", none⟩ [c9r1, c9r2]).length ≤ 30 :=
  c9_filters_then_truncates ⟨none, none, "", "", "", none⟩ [c9r1, c9r2] (by decide)
